import Mathlib

/-!
Shallow embedding of the quiz bot's test-taking core
(src/handlers/student.py and src/database/db.py): the question store,
the attempt ledger, the per-user FSM context, and the three handlers
`_start_test_for_topic`, `process_answer`, `_finish_test`.
-/

namespace HtmlBot

/-- A row of the `questions` table (src/database/db.py, `setup`): prompt text,
four option strings, and `correct_option`. The schema CHECK constraint
`correct_option BETWEEN 1 AND 4` is stated as a hypothesis where a claim
needs it. -/
structure Question where
  question_id : Nat
  topic_id : Nat
  text : String
  option1 : String
  option2 : String
  option3 : String
  option4 : String
  correct_option : Nat
deriving DecidableEq, Repr

/-- A row of the `topics` table: `attempt_limit` is nullable
(`INTEGER DEFAULT 1`), `is_available` gates visibility to students. -/
structure Topic where
  topic_id : Nat
  title : String
  is_available : Bool
  attempt_limit : Option Nat
deriving DecidableEq, Repr

/-- A row of the `attempts` table (the Attempt Ledger). The `timestamp`
column is not modelled; no claim depends on it. -/
structure Attempt where
  user_id : Nat
  topic_id : Nat
  score : Nat
  max_score : Nat
  attempt_number : Nat
deriving DecidableEq, Repr

/-- The durable store: the three tables the test-taking core touches. -/
structure Db where
  topics : List Topic
  questions : List Question
  attempts : List Attempt
deriving DecidableEq, Repr

/-- Embeds `Database.list_topics(include_hidden=False)`: only rows with
`is_available = 1`. The SQL `ORDER BY title` is not modelled: `topic_id`
is the primary key, so the `find?`-by-id lookups below do not depend on
row order. -/
def list_topics (db : Db) (include_hidden : Bool) : List Topic :=
  if include_hidden then db.topics else db.topics.filter (fun t => t.is_available)

/-- The full question pool of one topic (`WHERE topic_id = ?`). -/
def questionPool (db : Db) (topic_id : Nat) : List Question :=
  db.questions.filter (fun q => q.topic_id == topic_id)

/-- Embeds `Database.fetch_random_questions`: `ORDER BY RANDOM() LIMIT ?`. The
random permutation chosen by SQLite is modelled as the explicit argument
`shuffled`, constrained in theorems to be a permutation of
`questionPool db topic_id`. -/
def fetch_random_questions (shuffled : List Question) (limit : Nat) : List Question :=
  shuffled.take limit

/-- Embeds `Database.get_attempt_count`: `COUNT(*)` of attempts matching
(user_id, topic_id). -/
def get_attempt_count (db : Db) (user_id topic_id : Nat) : Nat :=
  (db.attempts.filter (fun a => a.user_id == user_id && a.topic_id == topic_id)).length

/-- Embeds `Database.save_attempt` with an explicit `attempt_number` (the only way
`_finish_test` calls it): inserts one row. -/
def save_attempt (db : Db) (user_id topic_id score max_score attempt_number : Nat) : Db :=
  { db with attempts := db.attempts ++ [⟨user_id, topic_id, score, max_score, attempt_number⟩] }

/-- The aiogram FSM state values used by the test flow
(`states/forms.py` `TestState`): `idle` models state `None`. -/
inductive Phase
  | idle
  | choosingTopic
  | answering
deriving DecidableEq, Repr

/-- The FSM data dict as populated by `_start_test_for_topic`'s
`state.update_data(topic_id=..., topic_title=..., questions=..., current=0,
correct=0)`; `attempts_done` is the extra key written on the limited-topic
path. -/
structure SessionData where
  topic_id : Nat
  topic_title : String
  questions : List Question
  current : Nat
  correct : Nat
  attempts_done : Option Nat
deriving DecidableEq, Repr

/-- One user's FSMContext: the state (`Phase`) and the data dict, `none`
when no session data has been stored. -/
structure Ctx where
  phase : Phase
  data : Option SessionData
deriving DecidableEq, Repr

/-- Embeds `state.clear()`: resets the state to `None` and empties the data. -/
def Ctx.clear (_ : Ctx) : Ctx := ⟨Phase.idle, none⟩

/-- The rejection reasons `_start_test_for_topic` can report (each is a
distinct user-facing message in the source). -/
inductive StartReason
  | topicUnavailable
  | insufficientQuestions
  | limitExhausted
deriving DecidableEq, Repr

/-- Outcome of a Start event. -/
inductive StartOutcome
  | rejected (r : StartReason)
  | started
deriving DecidableEq, Repr

/-- Embeds `_start_test_for_topic` (src/handlers/student.py, lines 43-88):
looks the topic up among available topics, samples 10 questions, runs the
attempt-limit gate, and on success moves the FSM to `answering` with
index 0 and correct count 0. `shuffled` is the random ordering used by
`fetch_random_questions` (see its doc comment). Returns the new context
and the outcome reported to the user. -/
def start_test_for_topic (db : Db) (shuffled : List Question) (ctx : Ctx)
    (user_id topic_id : Nat) : Ctx × StartOutcome :=
  let topics := list_topics db false
  match topics.find? (fun t => t.topic_id == topic_id) with
  | none => (ctx, StartOutcome.rejected StartReason.topicUnavailable)
  | some topic =>
    let questions := fetch_random_questions shuffled 10
    if questions.length < 10 then
      (ctx, StartOutcome.rejected StartReason.insufficientQuestions)
    else
      let proceed := fun (ad : Option Nat) =>
        (Ctx.mk Phase.answering
          (some ⟨topic_id, topic.title, questions, 0, 0, ad⟩), StartOutcome.started)
      match topic.attempt_limit with
      | some attempt_limit =>
        let attempts_done := get_attempt_count db user_id topic_id
        if attempts_done ≥ attempt_limit then
          (Ctx.clear ctx, StartOutcome.rejected StartReason.limitExhausted)
        else
          proceed (some attempts_done)
      | none => proceed none

/-- Outcome of a SubmitAnswer event: stale answer ignored, next question
presented, or test finished with the committed result. -/
inductive AnswerOutcome
  | ignored
  | nextQuestion
  | finished (score max_score attempt_number : Nat)
deriving DecidableEq, Repr

/-- Embeds `_finish_test` (lines 208-233): reads the session data, counts prior
attempts, writes one Attempt row with `attempt_number = count + 1`, then
clears the FSM. `failWith = some e` models the ledger INSERT raising a
storage error `e`: the row is not written and the code after
`db.save_attempt` (including `state.clear()`) never runs, so the context
is returned unchanged and the error propagates. -/
def finish_test (failWith : Option String) (db : Db) (ctx : Ctx)
    (data : SessionData) (user_id : Nat) : Db × Ctx × Except String AnswerOutcome :=
  let score := data.correct
  let max_score := data.questions.length
  let topic_id := data.topic_id
  let attempt_count := get_attempt_count db user_id topic_id
  let attempt_number := attempt_count + 1
  match failWith with
  | some e => (db, ctx, Except.error e)
  | none =>
    (save_attempt db user_id topic_id score max_score attempt_number,
     Ctx.clear ctx,
     Except.ok (AnswerOutcome.finished score max_score attempt_number))

/-- Embeds `process_answer` (lines 183-205): the handler for `answer:{idx}:{opt}`
callbacks, registered only for `TestState.answering`. If the callback's
index differs from the session's current index the event is ignored.
Otherwise the chosen option is compared to `correct_option`, the running
count updated, and either the next question is presented or, past the
last question, `_finish_test` runs. `none` models the handler raising
(KeyError on missing data, IndexError on an out-of-range current index);
both raises happen before any state write, so the caller's state is
untouched in that case. -/
def process_answer (failWith : Option String) (db : Db) (ctx : Ctx)
    (idx selected user_id : Nat) : Option (Db × Ctx × Except String AnswerOutcome) :=
  match ctx.data with
  | none => none
  | some data =>
    if idx ≠ data.current then
      some (db, ctx, Except.ok AnswerOutcome.ignored)
    else
      match data.questions[idx]? with
      | none => none
      | some q =>
        let newCorrect := if q.correct_option == selected then data.correct + 1 else data.correct
        let data' := { data with correct := newCorrect }
        let ctx' := { ctx with data := some data' }
        let next_idx := idx + 1
        if next_idx ≥ data.questions.length then
          some (finish_test failWith db ctx' data' user_id)
        else
          some (db, { ctx' with data := some { data' with current := next_idx } },
                Except.ok AnswerOutcome.nextQuestion)

/-- The world a run of answer events acts on: the durable store plus one
user's FSM context. -/
structure World where
  db : Db
  ctx : Ctx
deriving DecidableEq, Repr

/-- One SubmitAnswer event applied to the world (storage healthy). A
raised exception (`process_answer = none`) happens before any state
write, so the world is unchanged. -/
def stepAnswer (user_id : Nat) (w : World) (e : Nat × Nat) : World :=
  match process_answer none w.db w.ctx e.1 e.2 user_id with
  | some (db', ctx', _) => ⟨db', ctx'⟩
  | none => w

/-- A sequence of SubmitAnswer events `(question_index, chosen_option)`
applied in order. -/
def runAnswers (user_id : Nat) (w : World) (es : List (Nat × Nat)) : World :=
  es.foldl (stepAnswer user_id) w

/-- The session invariants of spec section 3 on the data dict. -/
def SessionInv (d : SessionData) : Prop :=
  d.current < d.questions.length ∧ d.correct ≤ d.current + 1

instance (d : SessionData) : Decidable (SessionInv d) := by
  unfold SessionInv; infer_instance

/-- Invariant on a context: whatever session data is stored satisfies the
session invariants. -/
def CtxInv (ctx : Ctx) : Prop :=
  ∀ d, ctx.data = some d → SessionInv d

/-! Concrete fixtures used by witnesses and counterexamples. -/

/-- A question of topic 1 with the given id and correct option. -/
def mkQuestion (i copt : Nat) : Question :=
  ⟨i, 1, "prompt", "optA", "optB", "optC", "optD", copt⟩

/-- Ten questions for topic 1, correct options 1,2,3,4,1,2,3,4,1,2. -/
def demoQuestions : List Question :=
  [mkQuestion 1 1, mkQuestion 2 2, mkQuestion 3 3, mkQuestion 4 4, mkQuestion 5 1,
   mkQuestion 6 2, mkQuestion 7 3, mkQuestion 8 4, mkQuestion 9 1, mkQuestion 10 2]

/-- An available topic with attempt limit 2. -/
def demoTopic : Topic := ⟨1, "HTML Basics", true, some 2⟩

/-- A store holding one available topic, its ten questions, no attempts. -/
def demoDb : Db := ⟨[demoTopic], demoQuestions, []⟩

/-- The session data `start_test_for_topic` creates for user 7 on `demoDb`. -/
def demoSession : SessionData := ⟨1, "HTML Basics", demoQuestions, 0, 0, some 0⟩

/-- A context in the middle of answering the demo test. -/
def demoCtx : Ctx := ⟨Phase.answering, some demoSession⟩

/-- Answers to the demo test: correct at indices 0,1,3,4,6,7,9 and wrong at
2,5,8 — seven correct out of ten. -/
def demoAnswers : List (Nat × Nat) :=
  [(0, 1), (1, 2), (2, 1), (3, 4), (4, 1), (5, 1), (6, 3), (7, 4), (8, 2), (9, 2)]

/-- A store whose only topic is hidden (`is_available = 0`). -/
def hiddenTopicDb : Db := ⟨[⟨2, "Hidden", false, none⟩], [], []⟩

/-- A store with an available topic whose pool has only four questions. -/
def smallPoolDb : Db :=
  ⟨[⟨3, "Short", true, none⟩],
   [⟨1, 3, "prompt", "optA", "optB", "optC", "optD", 1⟩,
    ⟨2, 3, "prompt", "optA", "optB", "optC", "optD", 2⟩,
    ⟨3, 3, "prompt", "optA", "optB", "optC", "optD", 3⟩,
    ⟨4, 3, "prompt", "optA", "optB", "optC", "optD", 4⟩],
   []⟩

/-! Theorems. -/

/-- C1: for an active session, a SubmitAnswer whose question index differs
from the session's current index is a complete no-op: the store (hence the
attempt ledger) and the context are returned unchanged and the outcome is
`ignored` — no attempt commit is emitted. -/
theorem stale_answer_is_noop (failWith : Option String) (db : Db) (ctx : Ctx)
    (data : SessionData) (idx selected user_id : Nat)
    (hphase : ctx.phase = Phase.answering) (hdata : ctx.data = some data)
    (hstale : idx ≠ data.current) :
    process_answer failWith db ctx idx selected user_id =
      some (db, ctx, Except.ok AnswerOutcome.ignored) := by
  simp [process_answer, hdata, hstale]

/-- Witness for C1: a stale answer (index 3 while the session is at index 0)
on the demo session changes nothing. -/
theorem stale_answer_is_noop_witness :
    demoCtx.phase = Phase.answering ∧ demoCtx.data = some demoSession ∧
    (3 : Nat) ≠ demoSession.current ∧
    process_answer none demoDb demoCtx 3 1 7 =
      some (demoDb, demoCtx, Except.ok AnswerOutcome.ignored) :=
  ⟨rfl, rfl, by decide,
    stale_answer_is_noop none demoDb demoCtx demoSession 3 1 7 rfl rfl (by decide)⟩

/-- C5: the Attempt row committed by Finish carries
`attempt_number = (count of prior attempts for this user and topic) + 1`,
and the count afterwards is the prior count plus one — so successive
commits for one (user, topic) record 1-based, strictly increasing numbers. -/
theorem attempt_number_is_prior_count_plus_one (db : Db) (ctx : Ctx)
    (data : SessionData) (user_id : Nat) :
    (finish_test none db ctx data user_id).1.attempts =
      db.attempts ++ [⟨user_id, data.topic_id, data.correct, data.questions.length,
        get_attempt_count db user_id data.topic_id + 1⟩] ∧
    get_attempt_count (finish_test none db ctx data user_id).1 user_id data.topic_id =
      get_attempt_count db user_id data.topic_id + 1 := by
  refine ⟨rfl, ?_⟩
  simp [finish_test, save_attempt, get_attempt_count, List.filter_append]

/-- C7: if the ledger write during Finish raises a storage error, the error
propagates unmodified and both the store and the context (the session) are
exactly their pre-failure values; a retry of Finish on that unchanged state
commits the attempt with the session's score. -/
theorem storage_failure_preserves_session (db : Db) (ctx : Ctx)
    (data : SessionData) (user_id : Nat) (e : String) :
    finish_test (some e) db ctx data user_id = (db, ctx, Except.error e) ∧
    (finish_test none db ctx data user_id).1.attempts =
      db.attempts ++ [⟨user_id, data.topic_id, data.correct, data.questions.length,
        get_attempt_count db user_id data.topic_id + 1⟩] ∧
    (finish_test none db ctx data user_id).2.2 =
      Except.ok (AnswerOutcome.finished data.correct data.questions.length
        (get_attempt_count db user_id data.topic_id + 1)) :=
  ⟨rfl, rfl, rfl⟩

/-- C8 counterexample: starting a test on a hidden topic from the
`choosingTopic` state is rejected with the topic-unavailable reason, yet the
machine does not return to `idle` — the code only calls `state.clear()` on
the limit-exhausted path, so the FSM stays in `choosingTopic`. -/
theorem start_failure_not_idle_counterexample :
    (start_test_for_topic hiddenTopicDb [] ⟨Phase.choosingTopic, none⟩ 7 2).2 =
      StartOutcome.rejected StartReason.topicUnavailable ∧
    (start_test_for_topic hiddenTopicDb [] ⟨Phase.choosingTopic, none⟩ 7 2).1.phase ≠
      Phase.idle := by
  constructor
  · rfl
  · decide

/-- C8 amended: every Start failure reports its specific reason and creates
no session data; the limit-exhausted failure clears the FSM to `idle`, while
the topic-unavailable and insufficient-questions failures return the context
exactly as it was (in particular, a machine in `choosingTopic` stays there
rather than returning to `idle`). -/
theorem start_failure_state (db : Db) (shuffled : List Question) (ctx : Ctx)
    (user_id topic_id : Nat) (r : StartReason)
    (hrej : (start_test_for_topic db shuffled ctx user_id topic_id).2 =
      StartOutcome.rejected r) :
    (r = StartReason.limitExhausted →
      (start_test_for_topic db shuffled ctx user_id topic_id).1 = ⟨Phase.idle, none⟩) ∧
    (r ≠ StartReason.limitExhausted →
      (start_test_for_topic db shuffled ctx user_id topic_id).1 = ctx) := by
  unfold start_test_for_topic at *
  cases hfind : (list_topics db false).find? (fun t => t.topic_id == topic_id) with
  | none =>
    simp [hfind] at hrej ⊢
    subst hrej
    simp
  | some topic =>
    simp [hfind] at hrej ⊢
    by_cases hlen : (fetch_random_questions shuffled 10).length < 10
    · simp [hlen] at hrej ⊢
      subst hrej
      simp
    · simp [hlen] at hrej ⊢
      cases hlim : topic.attempt_limit with
      | none => simp [hlim] at hrej
      | some L =>
        by_cases hcnt : get_attempt_count db user_id topic_id ≥ L
        · simp [hlim, hcnt] at hrej ⊢
          subst hrej
          simp [Ctx.clear]
        · simp [hlim, hcnt] at hrej

/-- Witness for C8's amended theorem: on the hidden-topic store, the
rejection reason is topic-unavailable and the context is returned unchanged
(still `choosingTopic`). -/
theorem start_failure_state_witness :
    (start_test_for_topic hiddenTopicDb [] ⟨Phase.choosingTopic, none⟩ 7 2).2 =
      StartOutcome.rejected StartReason.topicUnavailable ∧
    (start_test_for_topic hiddenTopicDb [] ⟨Phase.choosingTopic, none⟩ 7 2).1 =
      ⟨Phase.choosingTopic, none⟩ :=
  ⟨rfl, (start_failure_state hiddenTopicDb [] ⟨Phase.choosingTopic, none⟩ 7 2
      StartReason.topicUnavailable rfl).2 (by decide)⟩

/-- Shared case analysis of `process_answer` at the session's current index:
the running count gains 1 exactly on a match with `correct_option`; before
the last question the index advances by one and the next question is
presented; on the last question `finish_test` commits the final count. -/
theorem process_answer_current_spec (failWith : Option String) (db : Db) (ctx : Ctx)
    (data : SessionData) (q : Question) (selected user_id : Nat)
    (hdata : ctx.data = some data) (hq : data.questions[data.current]? = some q) :
    (data.current + 1 < data.questions.length →
      process_answer failWith db ctx data.current selected user_id =
        some (db,
          { ctx with data := some { data with
              correct := if q.correct_option = selected then data.correct + 1 else data.correct,
              current := data.current + 1 } },
          Except.ok AnswerOutcome.nextQuestion)) ∧
    (data.current + 1 = data.questions.length →
      process_answer none db ctx data.current selected user_id =
        some (save_attempt db user_id data.topic_id
            (if q.correct_option = selected then data.correct + 1 else data.correct)
            data.questions.length
            (get_attempt_count db user_id data.topic_id + 1),
          ⟨Phase.idle, none⟩,
          Except.ok (AnswerOutcome.finished
            (if q.correct_option = selected then data.correct + 1 else data.correct)
            data.questions.length
            (get_attempt_count db user_id data.topic_id + 1)))) := by
  constructor
  · intro hlt
    have hge : ¬ data.current + 1 ≥ data.questions.length := by omega
    by_cases hc : q.correct_option = selected <;>
      simp [process_answer, hdata, hq, hge, hc]
  · intro hlast
    have hge : data.current + 1 ≥ data.questions.length := by omega
    by_cases hc : q.correct_option = selected <;>
      simp [process_answer, hdata, hq, hge, hc, finish_test, Ctx.clear, hlast]

/-- C2: a SubmitAnswer at the session's current index increments the running
correct count by exactly 1 iff the chosen option equals the question's
`correct_option`, and advances the current index by exactly 1 — presenting
the next question when one remains, and otherwise finishing with the updated
count as the committed score. -/
theorem answer_at_current_index (failWith : Option String) (db : Db) (ctx : Ctx)
    (data : SessionData) (q : Question) (selected user_id : Nat)
    (hphase : ctx.phase = Phase.answering) (hdata : ctx.data = some data)
    (hq : data.questions[data.current]? = some q) :
    (data.current + 1 < data.questions.length →
      process_answer failWith db ctx data.current selected user_id =
        some (db,
          { ctx with data := some { data with
              correct := if q.correct_option = selected then data.correct + 1 else data.correct,
              current := data.current + 1 } },
          Except.ok AnswerOutcome.nextQuestion)) ∧
    (data.current + 1 = data.questions.length →
      process_answer none db ctx data.current selected user_id =
        some (save_attempt db user_id data.topic_id
            (if q.correct_option = selected then data.correct + 1 else data.correct)
            data.questions.length
            (get_attempt_count db user_id data.topic_id + 1),
          ⟨Phase.idle, none⟩,
          Except.ok (AnswerOutcome.finished
            (if q.correct_option = selected then data.correct + 1 else data.correct)
            data.questions.length
            (get_attempt_count db user_id data.topic_id + 1)))) :=
  process_answer_current_spec failWith db ctx data q selected user_id hdata hq

/-- Witness for C2: on the demo session at index 0, answering option 1
(the correct option of question 1) advances to index 1 with one correct. -/
theorem answer_at_current_index_witness :
    demoCtx.phase = Phase.answering ∧ demoCtx.data = some demoSession ∧
    demoSession.questions[demoSession.current]? = some (mkQuestion 1 1) ∧
    process_answer none demoDb demoCtx demoSession.current 1 7 =
      some (demoDb,
        { demoCtx with data := some { demoSession with correct := 1, current := 1 } },
        Except.ok AnswerOutcome.nextQuestion) := by
  refine ⟨rfl, rfl, by decide, ?_⟩
  have h := (answer_at_current_index none demoDb demoCtx demoSession (mkQuestion 1 1) 1 7
    rfl rfl (by decide)).1 (by decide)
  simpa using h

/-- C10: a SubmitAnswer at the current index whose chosen option lies
outside {1,2,3,4} raises no error and is handled as an incorrect answer:
the correct count is untouched (the schema constrains `correct_option` to
1..4, so no match is possible) and the index advances by one — or the test
finishes with the unchanged count when it was the last question. -/
theorem out_of_range_option_is_incorrect (failWith : Option String) (db : Db) (ctx : Ctx)
    (data : SessionData) (q : Question) (selected user_id : Nat)
    (hphase : ctx.phase = Phase.answering) (hdata : ctx.data = some data)
    (hq : data.questions[data.current]? = some q)
    (hcopt : 1 ≤ q.correct_option ∧ q.correct_option ≤ 4)
    (hsel : ¬ (1 ≤ selected ∧ selected ≤ 4)) :
    (data.current + 1 < data.questions.length →
      process_answer failWith db ctx data.current selected user_id =
        some (db,
          { ctx with data := some { data with current := data.current + 1 } },
          Except.ok AnswerOutcome.nextQuestion)) ∧
    (data.current + 1 = data.questions.length →
      process_answer none db ctx data.current selected user_id =
        some (save_attempt db user_id data.topic_id data.correct data.questions.length
            (get_attempt_count db user_id data.topic_id + 1),
          ⟨Phase.idle, none⟩,
          Except.ok (AnswerOutcome.finished data.correct data.questions.length
            (get_attempt_count db user_id data.topic_id + 1)))) := by
  have hne : ¬ q.correct_option = selected := by omega
  have h := process_answer_current_spec failWith db ctx data q selected user_id hdata hq
  simpa [hne] using h

/-- Witness for C10: on the demo session at index 0, answering option 9
(out of range) advances to index 1 with zero correct, no error raised. -/
theorem out_of_range_option_is_incorrect_witness :
    demoCtx.phase = Phase.answering ∧ demoCtx.data = some demoSession ∧
    demoSession.questions[demoSession.current]? = some (mkQuestion 1 1) ∧
    process_answer none demoDb demoCtx demoSession.current 9 7 =
      some (demoDb,
        { demoCtx with data := some { demoSession with current := 1 } },
        Except.ok AnswerOutcome.nextQuestion) := by
  refine ⟨rfl, rfl, by decide, ?_⟩
  have h := (out_of_range_option_is_incorrect none demoDb demoCtx demoSession
    (mkQuestion 1 1) 9 7 rfl rfl (by decide) (by decide) (by decide)).1 (by decide)
  simpa using h

/-- C3: for an available topic with enough questions, the attempt-limit gate
passes iff the limit is unset or the prior attempt count is strictly below
it; when it fails, Start is rejected with the limit-exhausted reason (and
the FSM is cleared). -/
theorem attempt_limit_gate (db : Db) (shuffled : List Question) (ctx : Ctx)
    (user_id topic_id : Nat) (topic : Topic)
    (htopic : (list_topics db false).find? (fun t => t.topic_id == topic_id) = some topic)
    (hlen : 10 ≤ shuffled.length) :
    ((start_test_for_topic db shuffled ctx user_id topic_id).2 = StartOutcome.started ↔
      (topic.attempt_limit = none ∨
        ∃ L, topic.attempt_limit = some L ∧ get_attempt_count db user_id topic_id < L)) ∧
    ((start_test_for_topic db shuffled ctx user_id topic_id).2 ≠ StartOutcome.started →
      start_test_for_topic db shuffled ctx user_id topic_id =
        (Ctx.clear ctx, StartOutcome.rejected StartReason.limitExhausted)) := by
  have hql : (fetch_random_questions shuffled 10).length = 10 := by
    simp [fetch_random_questions, List.length_take, Nat.min_eq_left hlen]
  have hnot : ¬ (fetch_random_questions shuffled 10).length < 10 := by omega
  unfold start_test_for_topic
  cases hlim : topic.attempt_limit with
  | none => simp [htopic, hnot, hlim]
  | some L =>
    by_cases hcnt : get_attempt_count db user_id topic_id ≥ L
    · simp [htopic, hnot, hlim, hcnt, Ctx.clear]
    · simp [htopic, hnot, hlim, hcnt]
      omega

/-- Witness for C3: on the demo store (limit 2, no prior attempts) Start
for user 7 on topic 1 passes the gate. -/
theorem attempt_limit_gate_witness :
    (start_test_for_topic demoDb demoQuestions ⟨Phase.idle, none⟩ 7 1).2 =
      StartOutcome.started :=
  (attempt_limit_gate demoDb demoQuestions ⟨Phase.idle, none⟩ 7 1 demoTopic
      (by decide) (by decide)).1.mpr
    (Or.inr ⟨2, rfl, by decide⟩)

/-- C4: for an available topic whose question pool has fewer than 10
questions, Start is rejected with the insufficient-questions reason and the
context is returned unchanged — no session state is initialized. -/
theorem insufficient_pool_rejects (db : Db) (shuffled : List Question) (ctx : Ctx)
    (user_id topic_id : Nat) (topic : Topic)
    (htopic : (list_topics db false).find? (fun t => t.topic_id == topic_id) = some topic)
    (hperm : shuffled.Perm (questionPool db topic_id))
    (hsmall : (questionPool db topic_id).length < 10) :
    start_test_for_topic db shuffled ctx user_id topic_id =
      (ctx, StartOutcome.rejected StartReason.insufficientQuestions) := by
  have hlen : shuffled.length < 10 := by rw [hperm.length_eq]; exact hsmall
  have hq : (fetch_random_questions shuffled 10).length < 10 := by
    simp only [fetch_random_questions, List.length_take]
    omega
  unfold start_test_for_topic
  simp [htopic, hq]

/-- Witness for C4: the four-question topic of `smallPoolDb` rejects Start
with the insufficient-questions reason and leaves the context unchanged. -/
theorem insufficient_pool_rejects_witness :
    start_test_for_topic smallPoolDb (questionPool smallPoolDb 3)
        ⟨Phase.choosingTopic, none⟩ 7 3 =
      (⟨Phase.choosingTopic, none⟩, StartOutcome.rejected StartReason.insufficientQuestions) :=
  insufficient_pool_rejects smallPoolDb (questionPool smallPoolDb 3)
    ⟨Phase.choosingTopic, none⟩ 7 3 ⟨3, "Short", true, none⟩
    (by decide) (List.Perm.refl _) (by decide)

/-- A successful Start produced the `answering` context with the sample
frozen (`shuffled.take 10`), index 0 and count 0, and the sample has
exactly 10 questions. -/
theorem start_started_shape (db : Db) (shuffled : List Question) (ctx ctx₁ : Ctx)
    (user_id topic_id : Nat)
    (h : start_test_for_topic db shuffled ctx user_id topic_id =
      (ctx₁, StartOutcome.started)) :
    ∃ topic ad,
      (list_topics db false).find? (fun t => t.topic_id == topic_id) = some topic ∧
      ctx₁ = ⟨Phase.answering, some ⟨topic_id, topic.title, shuffled.take 10, 0, 0, ad⟩⟩ ∧
      (shuffled.take 10).length = 10 := by
  simp only [start_test_for_topic] at h
  cases hfind : (list_topics db false).find? (fun t => t.topic_id == topic_id) with
  | none => rw [hfind] at h; simp at h
  | some topic =>
    rw [hfind] at h
    by_cases hlen : (fetch_random_questions shuffled 10).length < 10
    · simp [hlen] at h
    · have hlen10 : (shuffled.take 10).length = 10 := by
        have : (shuffled.take 10).length = min 10 shuffled.length := List.length_take 10 shuffled
        have h2 : ¬ (shuffled.take 10).length < 10 := hlen
        omega
      refine ⟨topic, ?_⟩
      cases hlim : topic.attempt_limit with
      | none =>
        simp [hlen, hlim] at h
        exact ⟨none, rfl, h.symm, hlen10⟩
      | some L =>
        by_cases hcnt : get_attempt_count db user_id topic_id ≥ L
        · simp [hlen, hlim, hcnt] at h
        · simp [hlen, hlim, hcnt] at h
          exact ⟨some (get_attempt_count db user_id topic_id), rfl, h.symm, hlen10⟩

/-- One SubmitAnswer step preserves the session invariants
`current < len(questions)` and `correct ≤ current + 1`. -/
theorem stepAnswer_preserves_inv (user_id : Nat) (w : World) (e : Nat × Nat)
    (hinv : CtxInv w.ctx) : CtxInv (stepAnswer user_id w e).ctx := by
  obtain ⟨i, sel⟩ := e
  unfold stepAnswer process_answer
  cases hdata : w.ctx.data with
  | none => simpa [hdata] using hinv
  | some data =>
    obtain ⟨hcur, hcor⟩ := hinv data hdata
    by_cases hst : i = data.current
    · subst hst
      obtain ⟨q, hq⟩ : ∃ q, data.questions[data.current]? = some q :=
        ⟨_, List.getElem?_eq_getElem hcur⟩
      by_cases hlast : data.current + 1 ≥ data.questions.length
      · simp [hdata, hq, hlast, finish_test, Ctx.clear, CtxInv]
      · simp [hdata, hq, hlast, CtxInv, SessionInv]
        constructor
        · omega
        · split <;> omega
    · simpa [hdata, hst] using hinv

/-- Every sequence of SubmitAnswer events preserves the session
invariants. -/
theorem runAnswers_preserves_inv (user_id : Nat) (es : List (Nat × Nat)) (w : World)
    (hinv : CtxInv w.ctx) : CtxInv (runAnswers user_id w es).ctx := by
  induction es generalizing w with
  | nil => exact hinv
  | cons e es ih => exact ih (stepAnswer user_id w e) (stepAnswer_preserves_inv user_id w e hinv)

/-- C9: a session created by a successful Start begins at index 0 with
count 0 and satisfies the invariants `0 ≤ current < len(questions)` and
`0 ≤ correct ≤ current + 1`, and every sequence of SubmitAnswer events
keeps them (the session data is cleared, not left at an out-of-range
index, when the last question is answered). -/
theorem session_invariants_preserved (db : Db) (shuffled : List Question) (ctx ctx₁ : Ctx)
    (user_id topic_id : Nat) (es : List (Nat × Nat))
    (hstart : start_test_for_topic db shuffled ctx user_id topic_id =
      (ctx₁, StartOutcome.started)) :
    (∀ d, ctx₁.data = some d → d.current = 0 ∧ d.correct = 0 ∧ SessionInv d) ∧
    CtxInv (runAnswers user_id ⟨db, ctx₁⟩ es).ctx := by
  obtain ⟨topic, ad, hfind, hctx, hlen10⟩ :=
    start_started_shape db shuffled ctx ctx₁ user_id topic_id hstart
  have hstart0 : ∀ d, ctx₁.data = some d → d.current = 0 ∧ d.correct = 0 ∧ SessionInv d := by
    intro d hd
    rw [hctx] at hd
    simp at hd
    subst hd
    refine ⟨rfl, rfl, ?_, ?_⟩
    · show 0 < (shuffled.take 10).length
      omega
    · exact Nat.zero_le 1
  refine ⟨hstart0, runAnswers_preserves_inv user_id es ⟨db, ctx₁⟩ ?_⟩
  intro d hd
  exact (hstart0 d hd).2.2

/-- Witness for C9: the demo Start followed by one correct answer keeps the
invariants. -/
theorem session_invariants_preserved_witness :
    CtxInv (runAnswers 7
      ⟨demoDb, (start_test_for_topic demoDb demoQuestions ⟨Phase.idle, none⟩ 7 1).1⟩
      [(0, 1)]).ctx :=
  (session_invariants_preserved demoDb demoQuestions ⟨Phase.idle, none⟩
    (start_test_for_topic demoDb demoQuestions ⟨Phase.idle, none⟩ 7 1).1 7 1 [(0, 1)] rfl).2

/-- One SubmitAnswer step never rewrites the sampled question list, and any
attempt row it appends has `max_score` equal to that list's length. -/
theorem stepAnswer_frozen (user_id : Nat) (w : World) (e : Nat × Nat) (qs0 : List Question)
    (hq : ∀ d, w.ctx.data = some d → d.questions = qs0) :
    (∀ d, (stepAnswer user_id w e).ctx.data = some d → d.questions = qs0) ∧
    (∀ a ∈ (stepAnswer user_id w e).db.attempts,
      a ∈ w.db.attempts ∨ a.max_score = qs0.length) := by
  obtain ⟨i, sel⟩ := e
  unfold stepAnswer process_answer
  cases hdata : w.ctx.data with
  | none => exact ⟨by simp [hdata], fun a ha => Or.inl ha⟩
  | some data =>
    have hqs : data.questions = qs0 := hq data hdata
    by_cases hst : i = data.current
    · subst hst
      cases hgq : data.questions[data.current]? with
      | none => exact ⟨by simpa [hdata, hgq] using hq, by simp [hdata, hgq]; exact fun a ha => Or.inl ha⟩
      | some q =>
        by_cases hlast : data.current + 1 ≥ data.questions.length
        · refine ⟨?_, ?_⟩
          · simp [hdata, hgq, hlast, finish_test, Ctx.clear]
          · simp [hdata, hgq, hlast, finish_test, save_attempt]
            intro a ha
            rcases ha with ha | ha
            · exact Or.inl ha
            · right
              rw [ha, ← hqs]
        · refine ⟨?_, ?_⟩
          · simp [hdata, hgq, hlast]
            exact hqs
          · simp [hdata, hgq, hlast]
            exact fun a ha => Or.inl ha
    · exact ⟨by simpa [hdata, hst] using hq, by simp [hdata, hst]; exact fun a ha => Or.inl ha⟩

/-- Any sequence of SubmitAnswer events keeps the sampled question list
frozen and commits only attempts whose `max_score` is its length. -/
theorem runAnswers_frozen (user_id : Nat) (es : List (Nat × Nat)) (w : World)
    (qs0 : List Question)
    (hq : ∀ d, w.ctx.data = some d → d.questions = qs0) :
    (∀ d, (runAnswers user_id w es).ctx.data = some d → d.questions = qs0) ∧
    (∀ a ∈ (runAnswers user_id w es).db.attempts,
      a ∈ w.db.attempts ∨ a.max_score = qs0.length) := by
  induction es generalizing w with
  | nil => exact ⟨hq, fun a ha => Or.inl ha⟩
  | cons e es ih =>
    obtain ⟨h1, h2⟩ := stepAnswer_frozen user_id w e qs0 hq
    obtain ⟨h1', h2'⟩ := ih (stepAnswer user_id w e) h1
    refine ⟨h1', fun a ha => ?_⟩
    rcases h2' a ha with ha' | ha'
    · exact h2 a ha'
    · exact Or.inr ha'

/-- C6: the question set of a session is frozen at Start: after any
sequence of SubmitAnswer events the stored question list is still the
Start-time sample, and every attempt committed during the run has
`max_score` equal to the sampled count — and concretely, the demo session
of 10 questions answered with 7 correct and 3 incorrect commits exactly
one Attempt with score 7, max_score 10 (and attempt number 1). -/
theorem max_score_equals_sampled_count (db : Db) (shuffled : List Question)
    (ctx ctx₁ : Ctx) (user_id topic_id : Nat) (es : List (Nat × Nat))
    (hstart : start_test_for_topic db shuffled ctx user_id topic_id =
      (ctx₁, StartOutcome.started)) :
    (∀ d, (runAnswers user_id ⟨db, ctx₁⟩ es).ctx.data = some d →
      d.questions = shuffled.take 10) ∧
    (∀ a ∈ (runAnswers user_id ⟨db, ctx₁⟩ es).db.attempts,
      a ∈ db.attempts ∨ a.max_score = (shuffled.take 10).length) ∧
    (runAnswers 7
      ⟨demoDb, (start_test_for_topic demoDb demoQuestions ⟨Phase.idle, none⟩ 7 1).1⟩
      demoAnswers).db.attempts = [⟨7, 1, 7, 10, 1⟩] := by
  obtain ⟨topic, ad, hfind, hctx, hlen10⟩ :=
    start_started_shape db shuffled ctx ctx₁ user_id topic_id hstart
  have hq : ∀ d, (World.mk db ctx₁).ctx.data = some d → d.questions = shuffled.take 10 := by
    intro d hd
    rw [hctx] at hd
    simp at hd
    rw [← hd]
  obtain ⟨h1, h2⟩ := runAnswers_frozen user_id es ⟨db, ctx₁⟩ (shuffled.take 10) hq
  exact ⟨h1, h2, rfl⟩

/-- Witness for C6: in the demo run, the single committed attempt
⟨7, 1, 7, 10, 1⟩ indeed has `max_score` equal to the sampled count. -/
theorem max_score_equals_sampled_count_witness :
    (⟨7, 1, 7, 10, 1⟩ : Attempt) ∈ demoDb.attempts ∨
      (Attempt.max_score ⟨7, 1, 7, 10, 1⟩) = (demoQuestions.take 10).length :=
  (max_score_equals_sampled_count demoDb demoQuestions ⟨Phase.idle, none⟩
      (start_test_for_topic demoDb demoQuestions ⟨Phase.idle, none⟩ 7 1).1 7 1
      demoAnswers rfl).2.1 ⟨7, 1, 7, 10, 1⟩ (by
    rw [(max_score_equals_sampled_count demoDb demoQuestions ⟨Phase.idle, none⟩
      (start_test_for_topic demoDb demoQuestions ⟨Phase.idle, none⟩ 7 1).1 7 1
      demoAnswers rfl).2.2]
    exact List.mem_singleton.mpr rfl)

end HtmlBot
